import Mathlib

/-!
Verification of the coinlizard price-resolution core: a shallow embedding of
the data model (src/common/src/models), the two exchange connectors
(src/connectors/src/coinbase.rs, src/connectors/src/binance.rs) and the
resolution service (src/api/src/service.rs), followed by theorems settling
the specification's claims about them.

Modelling conventions:
- `f64` values are idealised as rationals (`Rat`); no claim here depends on
  floating-point rounding.
- `DateTime<Utc>` instants are modelled as `Int` milliseconds since the epoch
  (chrono compares instants totally; the chrono validity range is not
  modelled).
- `async` I/O is embedded by passing each collaborator's observable outcome
  (store reads/writes, connector calls, upstream HTTP responses) as an
  explicit argument: a function-valued oracle for the service layer, a
  response value for a connector.
-/

/-- Models `common::models::Exchange`. -/
inductive Exchange where
  | Coinbase
  | Binance
deriving DecidableEq

/-- Models `common::models::PriceInterval`. -/
inductive PriceInterval where
  | OneMinute
  | FiveMinutes
  | FifteenMinutes
  | OneHour
  | FourHours
  | OneDay
  | OneWeek
deriving DecidableEq

/-- Models `common::models::Coin`. -/
structure Coin where
  id : String
  name : String
  symbol : String
deriving DecidableEq

/-- Models `common::models::TradingPair`. -/
structure TradingPair where
  base : String
  quote : String
deriving DecidableEq

/-- Models `common::models::CurrentPrice` (timestamp in epoch milliseconds). -/
structure CurrentPrice where
  exchange : Exchange
  pair : TradingPair
  price : Rat
  volume_24h : Option Rat
  timestamp : Int
deriving DecidableEq

/-- Models `common::models::PriceHistoryPoint` (timestamp in epoch
milliseconds). -/
structure PriceHistoryPoint where
  timestamp : Int
  price : Rat
  volume : Option Rat
deriving DecidableEq

/-- Models `common::models::PriceHistory`. -/
structure PriceHistory where
  exchange : Exchange
  pair : TradingPair
  interval : PriceInterval
  data : List PriceHistoryPoint
deriving DecidableEq

/-- Models `common::error::Error`; `HttpError` keeps only the transport
error's display text. -/
inductive Error where
  | HttpError (s : String)
  | DbError (s : String)
  | ExchangeError (s : String)
  | ParseError (s : String)
  | NotFound (s : String)
  | ConfigError (s : String)
  | InternalError (s : String)
deriving DecidableEq

/-- Models `store::error::StoreError` (each variant keeps its display text). -/
inductive StoreError where
  | ClientError (s : String)
  | QueryError (s : String)
  | WriteError (s : String)
  | ConfigError (s : String)
  | ConversionError (s : String)
  | InfluxDbError (s : String)
deriving DecidableEq

/-- Models `store::PriceQuery` (src/store/src/price_store.rs). -/
structure PriceQuery where
  pair : TradingPair
  exchange : Option Exchange
  interval : PriceInterval
  start_time : Option Int
  end_time : Option Int
  limit : Option Nat
deriving DecidableEq

/-- Numeric value of a list of decimal digit characters, most significant
first. -/
def digitsVal (l : List Char) : Nat :=
  l.foldl (fun a c => a * 10 + (c.toNat - 48)) 0

/-- Models Rust `str::parse::<f64>()` on the plain decimal fragment
`[+|-] digits [. digits]` with at least one digit; exponents and the special
forms inf/nan are outside the fragment this repository's upstream payloads
use, and the parsed value is idealised as an exact rational. -/
def parseF64 (s : String) : Option Rat :=
  let cs := s.toList
  let sgn : Bool × List Char :=
    match cs with
    | '-' :: rest => (true, rest)
    | '+' :: rest => (false, rest)
    | _ => (false, cs)
  let ip := sgn.2.takeWhile (fun c => c ≠ '.')
  let rest := sgn.2.dropWhile (fun c => c ≠ '.')
  let fp := match rest with
    | [] => []
    | _ :: fpart => fpart
  let ok : Bool :=
    ip.all Char.isDigit && fp.all Char.isDigit &&
      (match rest with
       | [] => !ip.isEmpty
       | _ :: _ => !ip.isEmpty || !fp.isEmpty)
  if ok then
    let mag : Rat := (digitsVal ip : Rat) + (digitsVal fp : Rat) / ((10 : Rat) ^ fp.length)
    some (if sgn.1 then -mag else mag)
  else none

/-- Model of a `serde_json::Value` as the candle loops consume it: a string,
a number, or anything else (null/bool/array/object, on which the accessors
used here all return `None`).  A JSON number is idealised as a rational;
integer-valued numbers are treated as i64-backed when in range. -/
inductive Json where
  | str (s : String)
  | num (q : Rat)
  | other
deriving DecidableEq

/-- Models `serde_json::Value::as_i64` (the i64 range bounds are the literal
values of `-(2^63)` and `2^63 - 1`). -/
def Json.as_i64 : Json → Option Int
  | .num q =>
      if q.den = 1 ∧ -9223372036854775808 ≤ q.num ∧ q.num ≤ 9223372036854775807 then
        some q.num
      else none
  | _ => none

/-- Models `serde_json::Value::as_f64`. -/
def Json.as_f64 : Json → Option Rat
  | .num q => some q
  | _ => none

/-- Models `serde_json::Value::as_str`. -/
def Json.as_str : Json → Option String
  | .str s => some s
  | _ => none

/-- Outcome of one upstream HTTP exchange as a connector observes it: a
transport failure (`reqwest` error display text), a non-success status with
its body text, a body that fails deserialisation, or a deserialised body. -/
inductive Upstream (α : Type) where
  | transportErr (e : String)
  | apiErr (status : Nat) (text : String)
  | bodyErr (e : String)
  | body (a : α)

/-- Descending-timestamp comparison used by both connectors' sorts. -/
def descTs (a b : PriceHistoryPoint) : Prop :=
  b.timestamp ≤ a.timestamp

instance : DecidableRel descTs := fun a b =>
  inferInstanceAs (Decidable (b.timestamp ≤ a.timestamp))

instance : IsTotal PriceHistoryPoint descTs :=
  ⟨fun a b => le_total b.timestamp a.timestamp⟩

instance : IsTrans PriceHistoryPoint descTs :=
  ⟨fun _ _ _ h1 h2 => le_trans h2 h1⟩

/-- Models `data_points.sort_by(|a, b| b.timestamp.cmp(&a.timestamp))`: a
stable sort into descending timestamp order (insertion sort is stable, as is
Rust's `sort_by`). -/
def sortDesc (l : List PriceHistoryPoint) : List PriceHistoryPoint :=
  l.insertionSort descTs

/-- Models `coinbase_granularity` (src/connectors/src/coinbase.rs): the
interval's duration in seconds. -/
def coinbase_granularity : PriceInterval → Nat
  | .OneMinute => 60
  | .FiveMinutes => 300
  | .FifteenMinutes => 900
  | .OneHour => 3600
  | .FourHours => 14400
  | .OneDay => 86400
  | .OneWeek => 604800

/-- Models `binance_interval` (src/connectors/src/binance.rs). -/
def binance_interval : PriceInterval → String
  | .OneMinute => "1m"
  | .FiveMinutes => "5m"
  | .FifteenMinutes => "15m"
  | .OneHour => "1h"
  | .FourHours => "4h"
  | .OneDay => "1d"
  | .OneWeek => "1w"

namespace CoinbaseConnector

/-- Body shape of the Coinbase spot-price endpoint
(`CoinbaseResponse<CoinbaseSpotPrice>` flattened to its `data` field). -/
structure CoinbaseSpotPrice where
  base : String
  currency : String
  amount : String
deriving DecidableEq

/-- Models `CoinbaseConnector::get_current_price`
(src/connectors/src/coinbase.rs lines 74-117); `now` is the instant
`Utc::now()` returns when the result is stamped. -/
def get_current_price (pair : TradingPair) (now : Int)
    (resp : Upstream CoinbaseSpotPrice) : Except Error CurrentPrice :=
  match resp with
  | .transportErr e => .error (.HttpError e)
  | .apiErr status text =>
      .error (.ExchangeError ("Coinbase API error: " ++ toString status ++ " - " ++ text))
  | .bodyErr e => .error (.ParseError ("Failed to parse Coinbase response: " ++ e))
  | .body d =>
      match parseF64 d.amount with
      | none => .error (.ParseError "Failed to parse price")
      | some price =>
          .ok { exchange := .Coinbase, pair := pair, price := price,
                volume_24h := none, timestamp := now }

/-- The `(start, end)` instants `CoinbaseConnector::get_price_history` puts in
its candle request (src/connectors/src/coinbase.rs lines 131-137), in epoch
milliseconds: an absent end defaults to `now`, an absent start to
`end - granularity * limit.unwrap_or(300)` seconds. -/
def history_window (interval : PriceInterval) (start_time end_time : Option Int)
    (limit : Option Nat) (now : Int) : Int × Int :=
  let tEnd := end_time.getD now
  let g : Int := coinbase_granularity interval
  let tStart := start_time.getD (tEnd - g * (limit.getD 300 : Nat) * 1000)
  (tStart, tEnd)

/-- One iteration of the candle loop of `CoinbaseConnector::get_price_history`
(src/connectors/src/coinbase.rs lines 173-207); `none` models `continue`.
Coinbase candle timestamps are epoch seconds, converted here to the model's
milliseconds. -/
def parseCandle (candle : List Json) : Option PriceHistoryPoint :=
  match candle with
  | t :: _ :: _ :: _ :: close :: vol :: _ =>
      match t.as_i64 with
      | none => none
      | some ts =>
          let price? : Option Rat :=
            match close.as_str with
            | some s => parseF64 s
            | none => close.as_f64
          match price? with
          | none => none
          | some price =>
              let volume : Option Rat :=
                match vol.as_str with
                | some s => parseF64 s
                | none => vol.as_f64
              some { timestamp := ts * 1000, price := price, volume := volume }
  | _ => none

/-- Models `CoinbaseConnector::get_price_history`
(src/connectors/src/coinbase.rs lines 119-223): parse each candle (skipping
malformed ones), sort newest-first, then truncate to `limit` if given.
`start_time`, `end_time` and `now` only shape the request sent upstream
(see `history_window`); they do not affect how the response is processed. -/
def get_price_history (pair : TradingPair) (interval : PriceInterval)
    (start_time end_time : Option Int) (limit : Option Nat) (now : Int)
    (resp : Upstream (List (List Json))) :
    Except Error PriceHistory :=
  let _ := history_window interval start_time end_time limit now
  match resp with
  | .transportErr e => .error (.HttpError e)
  | .apiErr status text =>
      .error (.ExchangeError ("Coinbase API error: " ++ toString status ++ " - " ++ text))
  | .bodyErr e => .error (.ParseError ("Failed to parse Coinbase candles: " ++ e))
  | .body candles =>
      let sorted := sortDesc (candles.filterMap parseCandle)
      let final := match limit with
        | some limitVal => sorted.take limitVal
        | none => sorted
      .ok { exchange := .Coinbase, pair := pair, interval := interval, data := final }

end CoinbaseConnector

namespace BinanceConnector

/-- Body shape of the Binance 24hr-ticker endpoint (`Binance24hTicker`). -/
structure Binance24hTicker where
  symbol : String
  last_price : String
  volume : String
deriving DecidableEq

/-- Models `BinanceConnector::get_current_price`
(src/connectors/src/binance.rs lines 59-105): the 24h quote volume is the
parsed base volume times the parsed price, absent when the volume field does
not parse. -/
def get_current_price (pair : TradingPair) (now : Int)
    (resp : Upstream Binance24hTicker) : Except Error CurrentPrice :=
  match resp with
  | .transportErr e => .error (.HttpError e)
  | .apiErr status text =>
      .error (.ExchangeError ("Binance API error: " ++ toString status ++ " - " ++ text))
  | .bodyErr e => .error (.ParseError ("Failed to parse Binance response: " ++ e))
  | .body ticker =>
      match parseF64 ticker.last_price with
      | none => .error (.ParseError "Failed to parse price")
      | some price =>
          .ok { exchange := .Binance, pair := pair, price := price,
                volume_24h := (parseF64 ticker.volume).map (fun v => v * price),
                timestamp := now }

/-- The klines request `BinanceConnector::get_price_history` sends
(src/connectors/src/binance.rs lines 115-138): `limit` is capped at 1000 and
defaults to 1000, and `startTime`/`endTime` are included only when the caller
supplied them (the local `end = end_time.unwrap_or(now)` binding of line 119
is never used in the request). -/
structure KlinesRequest where
  symbol : String
  interval : String
  limit : Nat
  startTime : Option Int
  endTime : Option Int
deriving DecidableEq

/-- Builds the klines request of `BinanceConnector::get_price_history`
(src/connectors/src/binance.rs lines 115-138). -/
def klines_request (pair : TradingPair) (interval : PriceInterval)
    (start_time end_time : Option Int) (limit : Option Nat) : KlinesRequest :=
  { symbol := pair.base ++ pair.quote,
    interval := binance_interval interval,
    limit := min (limit.getD 1000) 1000,
    startTime := start_time,
    endTime := end_time }

/-- One iteration of the candle loop of `BinanceConnector::get_price_history`
(src/connectors/src/binance.rs lines 181-212); `none` models `continue`.
Binance candle timestamps are already epoch milliseconds. -/
def parseCandle (candle : List Json) : Option PriceHistoryPoint :=
  match candle with
  | t :: _ :: _ :: _ :: close :: vol :: _ =>
      match t.as_i64 with
      | none => none
      | some ts =>
          match close.as_str with
          | none => none
          | some s =>
              match parseF64 s with
              | none => none
              | some price =>
                  let volume : Option Rat :=
                    match vol.as_str with
                    | some vs => parseF64 vs
                    | none => none
                  some { timestamp := ts, price := price, volume := volume }
  | _ => none

/-- Models `BinanceConnector::get_price_history`
(src/connectors/src/binance.rs lines 107-223): parse each candle (skipping
malformed ones) and sort newest-first.  Unlike Coinbase, the parsed response
is not truncated to `limit` after sorting; `start_time`, `end_time` and
`limit` only shape the request (see `klines_request`) and do not affect how
the response is processed (`now` feeds only the dead `end` binding of
line 119). -/
def get_price_history (pair : TradingPair) (interval : PriceInterval)
    (start_time end_time : Option Int) (limit : Option Nat) (now : Int)
    (resp : Upstream (List (List Json))) : Except Error PriceHistory :=
  let _ := klines_request pair interval start_time end_time limit
  match resp with
  | .transportErr e => .error (.HttpError e)
  | .apiErr status text =>
      .error (.ExchangeError ("Binance API error: " ++ toString status ++ " - " ++ text))
  | .bodyErr e => .error (.ParseError ("Failed to parse Binance candles: " ++ e))
  | .body candles =>
      .ok { exchange := .Binance, pair := pair, interval := interval,
            data := sortDesc (candles.filterMap parseCandle) }

end BinanceConnector

namespace CoinService

/-- The static catalog `CoinService::new` builds (src/api/src/service.rs
lines 30-63), keyed by each coin's `id`. -/
def popular_coins : List Coin :=
  [ { id := "bitcoin", name := "Bitcoin", symbol := "BTC" },
    { id := "ethereum", name := "Ethereum", symbol := "ETH" },
    { id := "ripple", name := "XRP", symbol := "XRP" },
    { id := "cardano", name := "Cardano", symbol := "ADA" },
    { id := "solana", name := "Solana", symbol := "SOL" } ]

/-- Models `CoinService::get_coin` (src/api/src/service.rs lines 79-84): a
lookup in the `HashMap` keyed by `id` (ids in the catalog are distinct, so a
keyed list lookup is equivalent). -/
def get_coin (id : String) : Except Error Coin :=
  match popular_coins.find? (fun c => c.id == id) with
  | some c => .ok c
  | none => .error (.NotFound ("Coin with ID '" ++ id ++ "' not found"))

/-- Models Rust `str::to_uppercase` on the ASCII fragment (character-wise
uppercasing; the service only uppercases quote-currency codes). -/
def rustToUppercase (s : String) : String :=
  ⟨s.data.map Char.toUpper⟩

/-- The `TradingPair` both service operations build (src/api/src/service.rs
lines 95-98 and 198-201): the coin's symbol as base, the uppercased quote
currency as quote. -/
def trading_pair (coin : Coin) (quote_currency : String) : TradingPair :=
  { base := coin.symbol, quote := rustToUppercase quote_currency }

/-- The exchange fan-out of `CoinService::get_current_price` on a cache miss
(src/api/src/service.rs lines 116-182).  `coinbase`/`binance` are the
connectors' outcomes as functions of the pair; each successful fetch is
written back best-effort (`let _ := ...` discards the write's outcome,
modelling the source's `let _ = self.store.store_current_price(..)`). -/
def fetch_current_prices (pair : TradingPair) (exchange : Option Exchange)
    (coinbase binance : TradingPair → Except Error CurrentPrice)
    (store_put : CurrentPrice → Except StoreError Unit) :
    Except Error (List CurrentPrice) :=
  let prices : List CurrentPrice :=
    match exchange with
    | some .Coinbase =>
        match coinbase pair with
        | .ok price => let _ := store_put price; [price]
        | .error _ => []
    | some .Binance =>
        match binance pair with
        | .ok price => let _ := store_put price; [price]
        | .error _ => []
    | none =>
        let fromCoinbase : List CurrentPrice :=
          match coinbase pair with
          | .ok price => let _ := store_put price; [price]
          | .error _ => []
        let fromBinance : List CurrentPrice :=
          match binance pair with
          | .ok price => let _ := store_put price; [price]
          | .error _ => []
        fromCoinbase ++ fromBinance
  if prices.isEmpty then
    .error (.ExchangeError ("Failed to get current price for " ++ pair.base ++ "/" ++ pair.quote))
  else
    .ok prices

/-- Models `CoinService::get_current_price` (src/api/src/service.rs
lines 87-183).  `store_get` is the store read's outcome as a function of the
queried pair and exchange filter; connector and store-write outcomes are
oracles as in `fetch_current_prices`. -/
def get_current_price (coin_id quote_currency : String) (exchange : Option Exchange)
    (store_get : TradingPair → Option Exchange → Except StoreError (List CurrentPrice))
    (coinbase binance : TradingPair → Except Error CurrentPrice)
    (store_put : CurrentPrice → Except StoreError Unit) :
    Except Error (List CurrentPrice) :=
  match get_coin coin_id with
  | .error e => .error e
  | .ok coin =>
      let pair := trading_pair coin quote_currency
      match store_get pair exchange with
      | .ok prices =>
          if !prices.isEmpty then .ok prices
          else fetch_current_prices pair exchange coinbase binance store_put
      | .error _ => fetch_current_prices pair exchange coinbase binance store_put

/-- The exchange fetch of `CoinService::get_price_history` on a cache miss
(src/api/src/service.rs lines 228-260): an explicitly requested exchange's
connector error propagates with no fallback; with no exchange given,
Coinbase is tried first and on any Coinbase error Binance's outcome is
surfaced.  The fetched history is written back best-effort. -/
def fetch_history (pair : TradingPair) (interval : PriceInterval)
    (exchange : Option Exchange) (start_time end_time : Option Int) (limit : Option Nat)
    (coinbase binance :
      TradingPair → PriceInterval → Option Int → Option Int → Option Nat →
        Except Error PriceHistory)
    (store_put : PriceHistory → Except StoreError Unit) :
    Except Error PriceHistory :=
  let fetched : Except Error PriceHistory :=
    match exchange with
    | some .Coinbase => coinbase pair interval start_time end_time limit
    | some .Binance => binance pair interval start_time end_time limit
    | none =>
        match coinbase pair interval start_time end_time limit with
        | .ok history => .ok history
        | .error _ => binance pair interval start_time end_time limit
  match fetched with
  | .error e => .error e
  | .ok history => let _ := store_put history; .ok history

/-- Models `CoinService::get_price_history` (src/api/src/service.rs
lines 186-261).  `store_get` is the store read's outcome as a function of the
constructed `PriceQuery`. -/
def get_price_history (coin_id quote_currency : String) (interval : PriceInterval)
    (exchange : Option Exchange) (start_time end_time : Option Int) (limit : Option Nat)
    (store_get : PriceQuery → Except StoreError PriceHistory)
    (coinbase binance :
      TradingPair → PriceInterval → Option Int → Option Int → Option Nat →
        Except Error PriceHistory)
    (store_put : PriceHistory → Except StoreError Unit) :
    Except Error PriceHistory :=
  match get_coin coin_id with
  | .error e => .error e
  | .ok coin =>
      let pair := trading_pair coin quote_currency
      let query : PriceQuery :=
        { pair := pair, exchange := exchange, interval := interval,
          start_time := start_time, end_time := end_time, limit := limit }
      match store_get query with
      | .ok history =>
          if !history.data.isEmpty then .ok history
          else
            fetch_history pair interval exchange start_time end_time limit
              coinbase binance store_put
      | .error _ =>
          fetch_history pair interval exchange start_time end_time limit
            coinbase binance store_put

end CoinService

/-- A store read of current prices that is a cache miss: the read failed, or
it succeeded with an empty candidate set (src/api/src/service.rs lines
106-114 treat the two identically). -/
def currMiss (r : Except StoreError (List CurrentPrice)) : Prop :=
  match r with
  | .ok prices => prices = []
  | .error _ => True

/-- A store read of a price history that is a cache miss: the read failed, or
it succeeded with an empty `data` (src/api/src/service.rs lines 218-226 treat
the two identically). -/
def histMiss (r : Except StoreError PriceHistory) : Prop :=
  match r with
  | .ok history => history.data = []
  | .error _ => True

/-- Two strings differ at most in letter case: character-wise uppercasing
makes them equal. -/
def caseEquiv (s t : String) : Prop :=
  s.data.map Char.toUpper = t.data.map Char.toUpper

/-- Concrete fixtures used by witnesses and counterexamples. -/
def wPair : TradingPair := { base := "BTC", quote := "USD" }

def wPoint (ts : Int) (p : Rat) : PriceHistoryPoint :=
  { timestamp := ts, price := p, volume := none }

def wPrice (e : Exchange) (x : Rat) : CurrentPrice :=
  { exchange := e, pair := wPair, price := x, volume_24h := none, timestamp := 0 }

def wHist (e : Exchange) (pts : List PriceHistoryPoint) : PriceHistory :=
  { exchange := e, pair := wPair, interval := .OneDay, data := pts }

def wStoreCurrEmpty : TradingPair → Option Exchange → Except StoreError (List CurrentPrice) :=
  fun _ _ => .ok []

def wStoreCurrHit : TradingPair → Option Exchange → Except StoreError (List CurrentPrice) :=
  fun _ _ => .ok [wPrice .Coinbase 50000]

def wStoreCurrErr : TradingPair → Option Exchange → Except StoreError (List CurrentPrice) :=
  fun _ _ => .error (.QueryError "influx down")

def wCbCurrOk : TradingPair → Except Error CurrentPrice :=
  fun p => .ok { exchange := .Coinbase, pair := p, price := 50000,
                 volume_24h := none, timestamp := 0 }

def wBnCurrOk : TradingPair → Except Error CurrentPrice :=
  fun p => .ok { exchange := .Binance, pair := p, price := 50100,
                 volume_24h := some 7, timestamp := 0 }

def wCurrFail : TradingPair → Except Error CurrentPrice :=
  fun _ => .error (.ExchangeError "exchange down")

def wPutCurr : CurrentPrice → Except StoreError Unit := fun _ => .ok ()

def wPutCurrFail : CurrentPrice → Except StoreError Unit :=
  fun _ => .error (.WriteError "disk full")

def wStoreHistEmpty : PriceQuery → Except StoreError PriceHistory :=
  fun _ => .ok (wHist .Coinbase [])

def wStoreHistHit : PriceQuery → Except StoreError PriceHistory :=
  fun _ => .ok (wHist .Coinbase [wPoint 1000 7])

def wStoreHistErr : PriceQuery → Except StoreError PriceHistory :=
  fun _ => .error (.QueryError "influx down")

def wCbHistOk :
    TradingPair → PriceInterval → Option Int → Option Int → Option Nat →
      Except Error PriceHistory :=
  fun p i _ _ _ => .ok { exchange := .Coinbase, pair := p, interval := i,
                         data := [wPoint 2000 9] }

def wBnHistOk :
    TradingPair → PriceInterval → Option Int → Option Int → Option Nat →
      Except Error PriceHistory :=
  fun p i _ _ _ => .ok { exchange := .Binance, pair := p, interval := i,
                         data := [wPoint 3000 11] }

def wHistFailCb :
    TradingPair → PriceInterval → Option Int → Option Int → Option Nat →
      Except Error PriceHistory :=
  fun _ _ _ _ _ => .error (.ExchangeError "coinbase down")

def wHistFailBn :
    TradingPair → PriceInterval → Option Int → Option Int → Option Nat →
      Except Error PriceHistory :=
  fun _ _ _ _ _ => .error (.HttpError "binance timeout")

def wPutHist : PriceHistory → Except StoreError Unit := fun _ => .ok ()

/-- C1: Cache-hit short-circuit: for both `CoinService::get_current_price`
and `CoinService::get_price_history`, if the store read succeeds with a
non-empty result, that result is returned immediately; the connectors and
the store write are universally quantified, so the outcome is independent of
connector behavior (no connector is invoked for the request). -/
theorem cache_hit_short_circuits_connectors
    (coin_id quote_currency : String) (exchange : Option Exchange)
    (coin : Coin) (hcoin : CoinService.get_coin coin_id = .ok coin)
    (store_get : TradingPair → Option Exchange → Except StoreError (List CurrentPrice))
    (prices : List CurrentPrice)
    (hhit : store_get (CoinService.trading_pair coin quote_currency) exchange = .ok prices)
    (hne : prices ≠ [])
    (coinbase binance : TradingPair → Except Error CurrentPrice)
    (store_put : CurrentPrice → Except StoreError Unit)
    (interval : PriceInterval) (st et : Option Int) (lim : Option Nat)
    (store_getH : PriceQuery → Except StoreError PriceHistory)
    (history : PriceHistory)
    (hhitH : store_getH
        { pair := CoinService.trading_pair coin quote_currency, exchange := exchange,
          interval := interval, start_time := st, end_time := et, limit := lim }
      = .ok history)
    (hneH : history.data ≠ [])
    (coinbaseH binanceH :
      TradingPair → PriceInterval → Option Int → Option Int → Option Nat →
        Except Error PriceHistory)
    (store_putH : PriceHistory → Except StoreError Unit) :
    CoinService.get_current_price coin_id quote_currency exchange
        store_get coinbase binance store_put = .ok prices
    ∧ CoinService.get_price_history coin_id quote_currency interval exchange
        st et lim store_getH coinbaseH binanceH store_putH = .ok history := by
  constructor
  · simp only [CoinService.get_current_price, hcoin, hhit]
    simp [List.isEmpty_iff, hne]
  · simp only [CoinService.get_price_history, hcoin, hhitH]
    simp [List.isEmpty_iff, hneH]

/-- Witness for C1 at concrete inputs: a populated store answers both lookups
with failing connectors supplied, and the cached values come back. -/
theorem cache_hit_short_circuits_connectors_witness :
    CoinService.get_current_price "bitcoin" "usd" none
        wStoreCurrHit wCurrFail wCurrFail wPutCurrFail = .ok [wPrice .Coinbase 50000]
    ∧ CoinService.get_price_history "bitcoin" "usd" .OneDay none none none none
        wStoreHistHit wHistFailCb wHistFailBn wPutHist = .ok (wHist .Coinbase [wPoint 1000 7]) :=
  cache_hit_short_circuits_connectors "bitcoin" "usd" none
    { id := "bitcoin", name := "Bitcoin", symbol := "BTC" } rfl
    wStoreCurrHit [wPrice .Coinbase 50000] rfl (List.cons_ne_nil _ _)
    wCurrFail wCurrFail wPutCurrFail
    .OneDay none none none
    wStoreHistHit (wHist .Coinbase [wPoint 1000 7]) rfl (List.cons_ne_nil _ _)
    wHistFailCb wHistFailBn wPutHist

deriving instance DecidableEq for Except

/-- C2: Asymmetric history fallback on a cache miss: with no exchange given,
Coinbase is tried first; a Coinbase success is returned, and on any Coinbase
failure the call's outcome is exactly Binance's outcome (so Binance's error
surfaces when both fail).  With an explicit exchange, the outcome is exactly
that connector's outcome and is independent of the other connector. -/
theorem history_fallback_asymmetric
    (coin_id quote_currency : String) (interval : PriceInterval)
    (st et : Option Int) (lim : Option Nat) (ex : Option Exchange)
    (store_get : PriceQuery → Except StoreError PriceHistory)
    (coinbase binance :
      TradingPair → PriceInterval → Option Int → Option Int → Option Nat →
        Except Error PriceHistory)
    (store_put : PriceHistory → Except StoreError Unit)
    (coin : Coin) (hcoin : CoinService.get_coin coin_id = .ok coin)
    (hmiss : histMiss (store_get
      { pair := CoinService.trading_pair coin quote_currency, exchange := ex,
        interval := interval, start_time := st, end_time := et, limit := lim })) :
    (ex = none →
      (∀ h, coinbase (CoinService.trading_pair coin quote_currency) interval st et lim = .ok h →
        CoinService.get_price_history coin_id quote_currency interval ex st et lim
          store_get coinbase binance store_put = .ok h) ∧
      (∀ e, coinbase (CoinService.trading_pair coin quote_currency) interval st et lim = .error e →
        CoinService.get_price_history coin_id quote_currency interval ex st et lim
          store_get coinbase binance store_put
          = binance (CoinService.trading_pair coin quote_currency) interval st et lim)) ∧
    (ex = some .Coinbase →
      CoinService.get_price_history coin_id quote_currency interval ex st et lim
          store_get coinbase binance store_put
        = coinbase (CoinService.trading_pair coin quote_currency) interval st et lim ∧
      (∀ binance2, CoinService.get_price_history coin_id quote_currency interval ex st et lim
          store_get coinbase binance2 store_put
        = CoinService.get_price_history coin_id quote_currency interval ex st et lim
          store_get coinbase binance store_put)) ∧
    (ex = some .Binance →
      CoinService.get_price_history coin_id quote_currency interval ex st et lim
          store_get coinbase binance store_put
        = binance (CoinService.trading_pair coin quote_currency) interval st et lim ∧
      (∀ coinbase2, CoinService.get_price_history coin_id quote_currency interval ex st et lim
          store_get coinbase2 binance store_put
        = CoinService.get_price_history coin_id quote_currency interval ex st et lim
          store_get coinbase binance store_put)) := by
  have hred : ∀ (cb bn :
      TradingPair → PriceInterval → Option Int → Option Int → Option Nat →
        Except Error PriceHistory),
      CoinService.get_price_history coin_id quote_currency interval ex st et lim
          store_get cb bn store_put
        = CoinService.fetch_history (CoinService.trading_pair coin quote_currency)
            interval ex st et lim cb bn store_put := by
    intro cb bn
    simp only [CoinService.get_price_history, hcoin]
    cases hsg : store_get
        { pair := CoinService.trading_pair coin quote_currency, exchange := ex,
          interval := interval, start_time := st, end_time := et, limit := lim } with
    | ok h0 =>
        rw [hsg] at hmiss
        simp only [histMiss] at hmiss
        simp [hmiss]
    | error e0 => simp
  refine ⟨?_, ?_, ?_⟩
  · rintro rfl
    refine ⟨?_, ?_⟩
    · intro h hc
      rw [hred coinbase binance]
      simp [CoinService.fetch_history, hc]
    · intro e hc
      rw [hred coinbase binance]
      cases hb : binance (CoinService.trading_pair coin quote_currency) interval st et lim with
      | ok h2 => simp [CoinService.fetch_history, hc, hb]
      | error e2 => simp [CoinService.fetch_history, hc, hb]
  · rintro rfl
    refine ⟨?_, ?_⟩
    · rw [hred coinbase binance]
      cases hc : coinbase (CoinService.trading_pair coin quote_currency) interval st et lim with
      | ok h2 => simp [CoinService.fetch_history, hc]
      | error e2 => simp [CoinService.fetch_history, hc]
    · intro binance2
      rw [hred coinbase binance, hred coinbase binance2]
      simp [CoinService.fetch_history]
  · rintro rfl
    refine ⟨?_, ?_⟩
    · rw [hred coinbase binance]
      cases hb : binance (CoinService.trading_pair coin quote_currency) interval st et lim with
      | ok h2 => simp [CoinService.fetch_history, hb]
      | error e2 => simp [CoinService.fetch_history, hb]
    · intro coinbase2
      rw [hred coinbase binance, hred coinbase2 binance]
      simp [CoinService.fetch_history]

/-- Witness for C2 at concrete inputs: store misses, Coinbase fails, and the
call returns exactly Binance's (successful) outcome. -/
theorem history_fallback_asymmetric_witness :
    CoinService.get_price_history "bitcoin" "usd" .OneDay none none none none
      wStoreHistEmpty wHistFailCb wBnHistOk wPutHist
      = .ok { exchange := .Binance,
              pair := { base := "BTC", quote := "USD" },
              interval := .OneDay, data := [wPoint 3000 11] } := by
  have h := history_fallback_asymmetric "bitcoin" "usd" .OneDay none none none none
    wStoreHistEmpty wHistFailCb wBnHistOk wPutHist
    { id := "bitcoin", name := "Bitcoin", symbol := "BTC" } rfl rfl
  rw [(h.1 rfl).2 (.ExchangeError "coinbase down") rfl]
  decide

/-- C3: Current-price fan-out on a cache miss: with an explicit exchange,
exactly that connector determines the outcome (independence from the other
connector is stated by quantifying it away), a success yields a singleton
result and a failure yields `ExchangeError` naming the pair; with no
exchange, both connectors are attempted, successes are appended
Coinbase-then-Binance, exactly one success yields exactly one entry, and
total failure yields `ExchangeError` naming the pair. -/
theorem current_price_fanout_contract
    (coin_id quote_currency : String) (ex : Option Exchange)
    (store_get : TradingPair → Option Exchange → Except StoreError (List CurrentPrice))
    (coinbase binance : TradingPair → Except Error CurrentPrice)
    (store_put : CurrentPrice → Except StoreError Unit)
    (coin : Coin) (hcoin : CoinService.get_coin coin_id = .ok coin)
    (hmiss : currMiss (store_get (CoinService.trading_pair coin quote_currency) ex)) :
    (ex = some .Coinbase →
      (∀ p, coinbase (CoinService.trading_pair coin quote_currency) = .ok p →
        CoinService.get_current_price coin_id quote_currency ex
          store_get coinbase binance store_put = .ok [p]) ∧
      (∀ e, coinbase (CoinService.trading_pair coin quote_currency) = .error e →
        CoinService.get_current_price coin_id quote_currency ex
          store_get coinbase binance store_put
          = .error (.ExchangeError ("Failed to get current price for "
              ++ (CoinService.trading_pair coin quote_currency).base ++ "/"
              ++ (CoinService.trading_pair coin quote_currency).quote))) ∧
      (∀ binance2, CoinService.get_current_price coin_id quote_currency ex
          store_get coinbase binance2 store_put
        = CoinService.get_current_price coin_id quote_currency ex
          store_get coinbase binance store_put)) ∧
    (ex = some .Binance →
      (∀ p, binance (CoinService.trading_pair coin quote_currency) = .ok p →
        CoinService.get_current_price coin_id quote_currency ex
          store_get coinbase binance store_put = .ok [p]) ∧
      (∀ e, binance (CoinService.trading_pair coin quote_currency) = .error e →
        CoinService.get_current_price coin_id quote_currency ex
          store_get coinbase binance store_put
          = .error (.ExchangeError ("Failed to get current price for "
              ++ (CoinService.trading_pair coin quote_currency).base ++ "/"
              ++ (CoinService.trading_pair coin quote_currency).quote))) ∧
      (∀ coinbase2, CoinService.get_current_price coin_id quote_currency ex
          store_get coinbase2 binance store_put
        = CoinService.get_current_price coin_id quote_currency ex
          store_get coinbase binance store_put)) ∧
    (ex = none →
      (∀ p1 p2, coinbase (CoinService.trading_pair coin quote_currency) = .ok p1 →
        binance (CoinService.trading_pair coin quote_currency) = .ok p2 →
        CoinService.get_current_price coin_id quote_currency ex
          store_get coinbase binance store_put = .ok [p1, p2]) ∧
      (∀ p1 e, coinbase (CoinService.trading_pair coin quote_currency) = .ok p1 →
        binance (CoinService.trading_pair coin quote_currency) = .error e →
        CoinService.get_current_price coin_id quote_currency ex
          store_get coinbase binance store_put = .ok [p1]) ∧
      (∀ e p2, coinbase (CoinService.trading_pair coin quote_currency) = .error e →
        binance (CoinService.trading_pair coin quote_currency) = .ok p2 →
        CoinService.get_current_price coin_id quote_currency ex
          store_get coinbase binance store_put = .ok [p2]) ∧
      (∀ e1 e2, coinbase (CoinService.trading_pair coin quote_currency) = .error e1 →
        binance (CoinService.trading_pair coin quote_currency) = .error e2 →
        CoinService.get_current_price coin_id quote_currency ex
          store_get coinbase binance store_put
          = .error (.ExchangeError ("Failed to get current price for "
              ++ (CoinService.trading_pair coin quote_currency).base ++ "/"
              ++ (CoinService.trading_pair coin quote_currency).quote)))) := by
  have hred : ∀ (cb bn : TradingPair → Except Error CurrentPrice),
      CoinService.get_current_price coin_id quote_currency ex store_get cb bn store_put
        = CoinService.fetch_current_prices (CoinService.trading_pair coin quote_currency)
            ex cb bn store_put := by
    intro cb bn
    simp only [CoinService.get_current_price, hcoin]
    cases hsg : store_get (CoinService.trading_pair coin quote_currency) ex with
    | ok prices0 =>
        rw [hsg] at hmiss
        simp only [currMiss] at hmiss
        simp [hmiss]
    | error e0 => simp
  refine ⟨?_, ?_, ?_⟩
  · rintro rfl
    refine ⟨?_, ?_, ?_⟩
    · intro p hc
      rw [hred coinbase binance]
      simp [CoinService.fetch_current_prices, hc]
    · intro e hc
      rw [hred coinbase binance]
      simp [CoinService.fetch_current_prices, hc]
    · intro binance2
      rw [hred coinbase binance, hred coinbase binance2]
      rfl
  · rintro rfl
    refine ⟨?_, ?_, ?_⟩
    · intro p hb
      rw [hred coinbase binance]
      simp [CoinService.fetch_current_prices, hb]
    · intro e hb
      rw [hred coinbase binance]
      simp [CoinService.fetch_current_prices, hb]
    · intro coinbase2
      rw [hred coinbase binance, hred coinbase2 binance]
      rfl
  · rintro rfl
    refine ⟨?_, ?_, ?_, ?_⟩
    · intro p1 p2 hc hb
      rw [hred coinbase binance]
      simp [CoinService.fetch_current_prices, hc, hb]
    · intro p1 e hc hb
      rw [hred coinbase binance]
      simp [CoinService.fetch_current_prices, hc, hb]
    · intro e p2 hc hb
      rw [hred coinbase binance]
      simp [CoinService.fetch_current_prices, hc, hb]
    · intro e1 e2 hc hb
      rw [hred coinbase binance]
      simp [CoinService.fetch_current_prices, hc, hb]

/-- Witness for C3 at concrete inputs: with no exchange and only Binance
succeeding, the miss-path fan-out returns exactly one entry. -/
theorem current_price_fanout_contract_witness :
    CoinService.get_current_price "bitcoin" "usd" none
        wStoreCurrEmpty wCurrFail wBnCurrOk wPutCurr
      = .ok [{ exchange := .Binance, pair := { base := "BTC", quote := "USD" },
               price := 50100, volume_24h := some 7, timestamp := 0 }] := by
  have h := current_price_fanout_contract "bitcoin" "usd" none
    wStoreCurrEmpty wCurrFail wBnCurrOk wPutCurr
    { id := "bitcoin", name := "Bitcoin", symbol := "BTC" } rfl rfl
  rw [(h.2.2 rfl).2.2.1 (.ExchangeError "exchange down")
    { exchange := .Binance,
      pair := CoinService.trading_pair { id := "bitcoin", name := "Bitcoin", symbol := "BTC" } "usd",
      price := 50100, volume_24h := some 7, timestamp := 0 } rfl rfl]
  decide

/-- C7: Store failures never fail a request: in both resolution operations a
failed store read behaves exactly like an empty cache result, and the
outcome of the best-effort write-back never changes the returned value. -/
theorem store_failures_harmless
    (coin_id quote_currency : String) (ex : Option Exchange)
    (coin : Coin) (hcoin : CoinService.get_coin coin_id = .ok coin)
    (sg1 sg2 : TradingPair → Option Exchange → Except StoreError (List CurrentPrice))
    (e : StoreError)
    (h1 : sg1 (CoinService.trading_pair coin quote_currency) ex = .error e)
    (h2 : sg2 (CoinService.trading_pair coin quote_currency) ex = .ok [])
    (cb bn : TradingPair → Except Error CurrentPrice)
    (w : CurrentPrice → Except StoreError Unit)
    (interval : PriceInterval) (st et : Option Int) (lim : Option Nat)
    (sh1 sh2 : PriceQuery → Except StoreError PriceHistory)
    (e2 : StoreError) (hemp : PriceHistory)
    (h3 : sh1 { pair := CoinService.trading_pair coin quote_currency, exchange := ex,
                interval := interval, start_time := st, end_time := et, limit := lim }
            = .error e2)
    (h4 : sh2 { pair := CoinService.trading_pair coin quote_currency, exchange := ex,
                interval := interval, start_time := st, end_time := et, limit := lim }
            = .ok hemp)
    (h5 : hemp.data = [])
    (cbh bnh : TradingPair → PriceInterval → Option Int → Option Int → Option Nat →
        Except Error PriceHistory)
    (wh : PriceHistory → Except StoreError Unit) :
    CoinService.get_current_price coin_id quote_currency ex sg1 cb bn w
      = CoinService.get_current_price coin_id quote_currency ex sg2 cb bn w ∧
    CoinService.get_price_history coin_id quote_currency interval ex st et lim sh1 cbh bnh wh
      = CoinService.get_price_history coin_id quote_currency interval ex st et lim sh2 cbh bnh wh ∧
    (∀ w1 w2 : CurrentPrice → Except StoreError Unit,
      CoinService.get_current_price coin_id quote_currency ex sg1 cb bn w1
        = CoinService.get_current_price coin_id quote_currency ex sg1 cb bn w2) ∧
    (∀ w1 w2 : PriceHistory → Except StoreError Unit,
      CoinService.get_price_history coin_id quote_currency interval ex st et lim sh1 cbh bnh w1
        = CoinService.get_price_history coin_id quote_currency interval ex st et lim sh1 cbh bnh w2) := by
  refine ⟨?_, ?_, ?_, ?_⟩
  · simp only [CoinService.get_current_price, hcoin, h1, h2]
    simp
  · simp only [CoinService.get_price_history, hcoin, h3, h4]
    simp [h5]
  · intro w1 w2
    simp only [CoinService.get_current_price, hcoin, h1]
    cases ex with
    | none =>
        cases cb (CoinService.trading_pair coin quote_currency) <;>
          cases bn (CoinService.trading_pair coin quote_currency) <;>
            simp [CoinService.fetch_current_prices]
    | some exv =>
        cases exv <;>
          [cases cb (CoinService.trading_pair coin quote_currency);
           cases bn (CoinService.trading_pair coin quote_currency)] <;>
            simp [CoinService.fetch_current_prices]
  · intro w1 w2
    simp only [CoinService.get_price_history, hcoin, h3]
    cases ex with
    | none =>
        cases cbh (CoinService.trading_pair coin quote_currency) interval st et lim <;>
          simp [CoinService.fetch_history]
    | some exv =>
        cases exv <;>
          [cases cbh (CoinService.trading_pair coin quote_currency) interval st et lim;
           cases bnh (CoinService.trading_pair coin quote_currency) interval st et lim] <;>
            simp [CoinService.fetch_history]

/-- Witness for C7 at concrete inputs: a failed read and an empty read both
fall through to the same fan-out, and a failing write-back changes nothing. -/
theorem store_failures_harmless_witness :
    CoinService.get_current_price "bitcoin" "usd" none wStoreCurrErr wCbCurrOk wBnCurrOk wPutCurr
      = CoinService.get_current_price "bitcoin" "usd" none wStoreCurrEmpty wCbCurrOk wBnCurrOk wPutCurr ∧
    CoinService.get_current_price "bitcoin" "usd" none wStoreCurrErr wCbCurrOk wBnCurrOk wPutCurr
      = CoinService.get_current_price "bitcoin" "usd" none wStoreCurrErr wCbCurrOk wBnCurrOk wPutCurrFail := by
  have h := store_failures_harmless "bitcoin" "usd" none
    { id := "bitcoin", name := "Bitcoin", symbol := "BTC" } rfl
    wStoreCurrErr wStoreCurrEmpty (.QueryError "influx down") rfl rfl
    wCbCurrOk wBnCurrOk wPutCurr
    .OneDay none none none
    wStoreHistErr wStoreHistEmpty (.QueryError "influx down") (wHist .Coinbase []) rfl rfl rfl
    wCbHistOk wBnHistOk wPutHist
  exact ⟨h.1, h.2.2.1 wPutCurr wPutCurrFail⟩

/-- C8: Catalog lookup: every successful `get_coin` returns a coin whose id
is the requested id, every id present in the catalog succeeds, every absent
id fails with `NotFound`, and both resolution operations propagate a
`get_coin` error unchanged. -/
theorem catalog_lookup_contract :
    (∀ id c, CoinService.get_coin id = .ok c → c.id = id) ∧
    (∀ id, (∃ c ∈ CoinService.popular_coins, c.id = id) →
      ∃ c, CoinService.get_coin id = .ok c ∧ c.id = id) ∧
    (∀ id, (∀ c ∈ CoinService.popular_coins, c.id ≠ id) →
      CoinService.get_coin id = .error (.NotFound ("Coin with ID '" ++ id ++ "' not found"))) ∧
    (∀ id quote ex sg cb bn w e, CoinService.get_coin id = .error e →
      CoinService.get_current_price id quote ex sg cb bn w = .error e) ∧
    (∀ id quote interval ex st et lim sg cb bn w e, CoinService.get_coin id = .error e →
      CoinService.get_price_history id quote interval ex st et lim sg cb bn w = .error e) := by
  refine ⟨?_, ?_, ?_, ?_, ?_⟩
  · intro id c h
    simp only [CoinService.get_coin] at h
    cases hf : CoinService.popular_coins.find? (fun c => c.id == id) with
    | none => rw [hf] at h; exact absurd h (by simp)
    | some c' =>
        rw [hf] at h
        have hp := List.find?_some hf
        have : c' = c := by simpa using h
        subst this
        exact eq_of_beq hp
  · intro id hex
    obtain ⟨c, hc, hid⟩ := hex
    have hsome : (CoinService.popular_coins.find? (fun c => c.id == id)).isSome :=
      List.find?_isSome.mpr ⟨c, hc, by simp [hid]⟩
    obtain ⟨c', hc'⟩ := Option.isSome_iff_exists.mp hsome
    have hb := List.find?_some hc'
    refine ⟨c', ?_, eq_of_beq hb⟩
    simp [CoinService.get_coin, hc']
  · intro id hall
    have hnone : CoinService.popular_coins.find? (fun c => c.id == id) = none :=
      List.find?_eq_none.mpr (fun c hc => by simp [hall c hc])
    simp [CoinService.get_coin, hnone]
  · intro id quote ex sg cb bn w e h
    simp [CoinService.get_current_price, h]
  · intro id quote interval ex st et lim sg cb bn w e h
    simp [CoinService.get_price_history, h]

/-- Witness for C8: the spec's concrete scenario — an unknown coin id fails
with `NotFound` in `get_current_price`, and a known id resolves to itself. -/
theorem catalog_lookup_contract_witness :
    CoinService.get_current_price "doesnotexist" "usd" none
        wStoreCurrEmpty wCbCurrOk wBnCurrOk wPutCurr
      = .error (.NotFound "Coin with ID 'doesnotexist' not found") ∧
    (∃ c, CoinService.get_coin "bitcoin" = .ok c ∧ c.id = "bitcoin") := by
  constructor
  · exact catalog_lookup_contract.2.2.2.1 "doesnotexist" "usd" none
      wStoreCurrEmpty wCbCurrOk wBnCurrOk wPutCurr
      (.NotFound "Coin with ID 'doesnotexist' not found") (by decide)
  · exact catalog_lookup_contract.2.1 "bitcoin"
      ⟨{ id := "bitcoin", name := "Bitcoin", symbol := "BTC" }, by decide, rfl⟩

/-- Character-wise uppercasing is invariant across case-equivalent strings. -/
theorem rustToUppercase_eq_of_caseEquiv {s t : String} (h : caseEquiv s t) :
    CoinService.rustToUppercase s = CoinService.rustToUppercase t :=
  congrArg String.mk h

/-- C9: Quote-currency case insensitivity: both resolution operations build
the `TradingPair` with the uppercased quote currency, so two quote-currency
strings differing only in letter case yield the same `TradingPair` and
identical behavior of both operations. -/
theorem quote_case_insensitive
    (q1 q2 : String) (hq : caseEquiv q1 q2) :
    (∀ coin : Coin, CoinService.trading_pair coin q1
        = { base := coin.symbol, quote := CoinService.rustToUppercase q1 }) ∧
    (∀ coin : Coin, CoinService.trading_pair coin q1 = CoinService.trading_pair coin q2) ∧
    (∀ (coin_id : String) (ex : Option Exchange)
        (sg : TradingPair → Option Exchange → Except StoreError (List CurrentPrice))
        (cb bn : TradingPair → Except Error CurrentPrice)
        (w : CurrentPrice → Except StoreError Unit),
      CoinService.get_current_price coin_id q1 ex sg cb bn w
        = CoinService.get_current_price coin_id q2 ex sg cb bn w) ∧
    (∀ (coin_id : String) (interval : PriceInterval) (ex : Option Exchange)
        (st et : Option Int) (lim : Option Nat)
        (sg : PriceQuery → Except StoreError PriceHistory)
        (cb bn : TradingPair → PriceInterval → Option Int → Option Int → Option Nat →
          Except Error PriceHistory)
        (w : PriceHistory → Except StoreError Unit),
      CoinService.get_price_history coin_id q1 interval ex st et lim sg cb bn w
        = CoinService.get_price_history coin_id q2 interval ex st et lim sg cb bn w) := by
  have hu : CoinService.rustToUppercase q1 = CoinService.rustToUppercase q2 :=
    rustToUppercase_eq_of_caseEquiv hq
  have hpair : ∀ coin : Coin,
      CoinService.trading_pair coin q1 = CoinService.trading_pair coin q2 := by
    intro coin
    simp [CoinService.trading_pair, hu]
  refine ⟨fun coin => rfl, hpair, ?_, ?_⟩
  · intro coin_id ex sg cb bn w
    simp only [CoinService.get_current_price]
    cases h : CoinService.get_coin coin_id with
    | ok coin => dsimp only; rw [hpair coin]
    | error e => rfl
  · intro coin_id interval ex st et lim sg cb bn w
    simp only [CoinService.get_price_history]
    cases h : CoinService.get_coin coin_id with
    | ok coin => dsimp only; rw [hpair coin]
    | error e => rfl

/-- Witness for C9: the quote currencies "usd" and "USD" give identical
calls at concrete inputs. -/
theorem quote_case_insensitive_witness :
    CoinService.trading_pair { id := "bitcoin", name := "Bitcoin", symbol := "BTC" } "usd"
      = CoinService.trading_pair { id := "bitcoin", name := "Bitcoin", symbol := "BTC" } "USD" ∧
    CoinService.get_current_price "bitcoin" "usd" none wStoreCurrEmpty wCbCurrOk wBnCurrOk wPutCurr
      = CoinService.get_current_price "bitcoin" "USD" none wStoreCurrEmpty wCbCurrOk wBnCurrOk wPutCurr := by
  have h := quote_case_insensitive "usd" "USD" rfl
  exact ⟨h.2.1 _, h.2.2.1 "bitcoin" none wStoreCurrEmpty wCbCurrOk wBnCurrOk wPutCurr⟩

/-- C10: Spot-price field contract: a successful Coinbase spot price always
carries `volume_24h = none`; a successful Binance spot price carries
`volume_24h = some (parsed volume * parsed price)` when the upstream volume
field parses and `none` otherwise; both tag the producing exchange and echo
the requested pair. -/
theorem spot_volume_field_contract
    (pair : TradingPair) (now : Int)
    (spot : CoinbaseConnector.CoinbaseSpotPrice) (p : Rat)
    (hp : parseF64 spot.amount = some p)
    (ticker : BinanceConnector.Binance24hTicker) (q : Rat)
    (hq : parseF64 ticker.last_price = some q) :
    CoinbaseConnector.get_current_price pair now (.body spot)
      = .ok { exchange := .Coinbase, pair := pair, price := p,
              volume_24h := none, timestamp := now } ∧
    BinanceConnector.get_current_price pair now (.body ticker)
      = .ok { exchange := .Binance, pair := pair, price := q,
              volume_24h := (parseF64 ticker.volume).map (fun v => v * q),
              timestamp := now } ∧
    (∀ v, parseF64 ticker.volume = some v →
      BinanceConnector.get_current_price pair now (.body ticker)
        = .ok { exchange := .Binance, pair := pair, price := q,
                volume_24h := some (v * q), timestamp := now }) ∧
    (parseF64 ticker.volume = none →
      BinanceConnector.get_current_price pair now (.body ticker)
        = .ok { exchange := .Binance, pair := pair, price := q,
                volume_24h := none, timestamp := now }) := by
  refine ⟨?_, ?_, ?_, ?_⟩
  · simp [CoinbaseConnector.get_current_price, hp]
  · simp [BinanceConnector.get_current_price, hq]
  · intro v hv
    simp [BinanceConnector.get_current_price, hq, hv]
  · intro hv
    simp [BinanceConnector.get_current_price, hq, hv]

/-- Witness for C10 at concrete payloads: Coinbase reports no volume,
Binance reports parsed volume times parsed price. -/
theorem spot_volume_field_contract_witness :
    CoinbaseConnector.get_current_price wPair 0
        (.body { base := "BTC", currency := "USD", amount := "50000.5" })
      = .ok { exchange := .Coinbase, pair := wPair, price := 100001 / 2,
              volume_24h := none, timestamp := 0 } ∧
    BinanceConnector.get_current_price wPair 0
        (.body { symbol := "BTCUSDT", last_price := "2", volume := "3" })
      = .ok { exchange := .Binance, pair := wPair, price := 2,
              volume_24h := some 6, timestamp := 0 } := by
  have h := spot_volume_field_contract wPair 0
    { base := "BTC", currency := "USD", amount := "50000.5" } (100001 / 2)
    (by simp [parseF64, digitsVal]; norm_num)
    { symbol := "BTCUSDT", last_price := "2", volume := "3" } 2
    (by simp [parseF64, digitsVal])
  refine ⟨h.1, ?_⟩
  rw [h.2.2.1 3 (by simp [parseF64, digitsVal])]
  norm_num

/-- C6: Malformed-candle tolerance: for both connectors, a candle with fewer
than 6 fields, a non-integer timestamp, or an unparsable close-price string
is skipped (`none`); an unparsable volume string degrades to `volume = none`
without dropping the point; and a body of candles never fails the fetch —
the returned history's point count equals the number of parsable candles. -/
theorem malformed_candles_tolerated :
    (∀ c : List Json, c.length < 6 →
      CoinbaseConnector.parseCandle c = none ∧ BinanceConnector.parseCandle c = none) ∧
    (∀ (t f1 f2 f3 close vol : Json) (rest : List Json), t.as_i64 = none →
      CoinbaseConnector.parseCandle (t :: f1 :: f2 :: f3 :: close :: vol :: rest) = none ∧
      BinanceConnector.parseCandle (t :: f1 :: f2 :: f3 :: close :: vol :: rest) = none) ∧
    (∀ (t : Json) (ts : Int) (f1 f2 f3 vol : Json) (s : String) (rest : List Json),
      t.as_i64 = some ts → parseF64 s = none →
      CoinbaseConnector.parseCandle (t :: f1 :: f2 :: f3 :: Json.str s :: vol :: rest) = none ∧
      BinanceConnector.parseCandle (t :: f1 :: f2 :: f3 :: Json.str s :: vol :: rest) = none) ∧
    (∀ (t : Json) (ts : Int) (f1 f2 f3 : Json) (cs vs : String) (rest : List Json) (p : Rat),
      t.as_i64 = some ts → parseF64 cs = some p → parseF64 vs = none →
      CoinbaseConnector.parseCandle (t :: f1 :: f2 :: f3 :: Json.str cs :: Json.str vs :: rest)
        = some { timestamp := ts * 1000, price := p, volume := none } ∧
      BinanceConnector.parseCandle (t :: f1 :: f2 :: f3 :: Json.str cs :: Json.str vs :: rest)
        = some { timestamp := ts, price := p, volume := none }) ∧
    (∀ (pair : TradingPair) (interval : PriceInterval) (st et : Option Int)
        (lim : Option Nat) (now : Int) (candles : List (List Json)),
      ∃ h, CoinbaseConnector.get_price_history pair interval st et lim now (.body candles)
        = .ok h) ∧
    (∀ (pair : TradingPair) (interval : PriceInterval) (st et : Option Int)
        (now : Int) (candles : List (List Json)),
      ∃ h, CoinbaseConnector.get_price_history pair interval st et none now (.body candles)
        = .ok h ∧
        h.data.length = (candles.filterMap CoinbaseConnector.parseCandle).length) ∧
    (∀ (pair : TradingPair) (interval : PriceInterval) (st et : Option Int)
        (lim : Option Nat) (now : Int) (candles : List (List Json)),
      ∃ h, BinanceConnector.get_price_history pair interval st et lim now (.body candles)
        = .ok h ∧
        h.data.length = (candles.filterMap BinanceConnector.parseCandle).length) := by
  refine ⟨?_, ?_, ?_, ?_, ?_, ?_, ?_⟩
  · intro c hc
    rcases c with _ | ⟨t, _ | ⟨f1, _ | ⟨f2, _ | ⟨f3, _ | ⟨cl, _ | ⟨v, rest⟩⟩⟩⟩⟩⟩
    · exact ⟨rfl, rfl⟩
    · exact ⟨rfl, rfl⟩
    · exact ⟨rfl, rfl⟩
    · exact ⟨rfl, rfl⟩
    · exact ⟨rfl, rfl⟩
    · exact ⟨rfl, rfl⟩
    · simp at hc
      omega
  · intro t f1 f2 f3 close vol rest ht
    exact ⟨by simp [CoinbaseConnector.parseCandle, ht],
           by simp [BinanceConnector.parseCandle, ht]⟩
  · intro t ts f1 f2 f3 vol s rest ht hs
    exact ⟨by simp [CoinbaseConnector.parseCandle, Json.as_str, ht, hs],
           by simp [BinanceConnector.parseCandle, Json.as_str, ht, hs]⟩
  · intro t ts f1 f2 f3 cs vs rest p ht hcs hvs
    exact ⟨by simp [CoinbaseConnector.parseCandle, Json.as_str, ht, hcs, hvs],
           by simp [BinanceConnector.parseCandle, Json.as_str, ht, hcs, hvs]⟩
  · intro pair interval st et lim now candles
    exact ⟨_, rfl⟩
  · intro pair interval st et now candles
    refine ⟨_, rfl, ?_⟩
    simp [sortDesc]
  · intro pair interval st et lim now candles
    refine ⟨_, rfl, ?_⟩
    simp [sortDesc]

/-- A well-formed candle fixture: integer timestamp, parsable strings. -/
def wGoodCandle (t : Rat) : List Json :=
  [Json.num t, Json.str "1", Json.str "1", Json.str "1", Json.str "1", Json.str "1"]

/-- Ten raw candles, one of them malformed (fewer than 6 fields). -/
def wTenCandles : List (List Json) :=
  [wGoodCandle 0, wGoodCandle 1, wGoodCandle 2, wGoodCandle 3, wGoodCandle 4,
   wGoodCandle 5, wGoodCandle 6, wGoodCandle 7, wGoodCandle 8, [Json.num 9]]

/-- Witness for C6: the spec's 10-candles-1-malformed scenario yields 9
points, and a short candle parses to `none`. -/
theorem malformed_candles_tolerated_witness :
    CoinbaseConnector.parseCandle [Json.num 9] = none ∧
    ∃ h, CoinbaseConnector.get_price_history wPair .OneDay none none none 0 (.body wTenCandles)
      = .ok h ∧ h.data.length = 9 := by
  refine ⟨(malformed_candles_tolerated.1 [Json.num 9] (by decide)).1, ?_⟩
  obtain ⟨h, hh, hlen⟩ :=
    malformed_candles_tolerated.2.2.2.2.2.1 wPair .OneDay none none 0 wTenCandles
  refine ⟨h, hh, ?_⟩
  rw [hlen]
  decide

/-- C4 (amended): for every connector and upstream candle body, the returned
`data` is sorted by timestamp in non-increasing (descending, ties possible)
order regardless of upstream order.  Coinbase truncates after sorting to at
most `limit` points and every kept point is at least as new as every dropped
one; Binance returns all parsed points sorted, with no post-fetch truncation
(`limit` only caps the request built by `klines_request`). -/
theorem history_sorted_desc_and_truncation
    (pair : TradingPair) (interval : PriceInterval) (st et : Option Int)
    (lim : Option Nat) (now : Int) (candles : List (List Json)) :
    ∃ hc hb,
      CoinbaseConnector.get_price_history pair interval st et lim now (.body candles)
        = .ok hc ∧
      BinanceConnector.get_price_history pair interval st et lim now (.body candles)
        = .ok hb ∧
      List.Sorted descTs hc.data ∧
      List.Sorted descTs hb.data ∧
      hb.data = sortDesc (candles.filterMap BinanceConnector.parseCandle) ∧
      (lim = none → hc.data = sortDesc (candles.filterMap CoinbaseConnector.parseCandle)) ∧
      (∀ l, lim = some l →
        hc.data = (sortDesc (candles.filterMap CoinbaseConnector.parseCandle)).take l ∧
        hc.data.length ≤ l ∧
        ∀ p ∈ hc.data,
          ∀ q ∈ (sortDesc (candles.filterMap CoinbaseConnector.parseCandle)).drop l,
            q.timestamp ≤ p.timestamp) := by
  refine ⟨_, _, rfl, rfl, ?_, ?_, rfl, ?_, ?_⟩
  · cases lim with
    | none => exact List.sorted_insertionSort descTs _
    | some l =>
        exact List.Pairwise.sublist (List.take_sublist _ _)
          (List.sorted_insertionSort descTs _)
  · exact List.sorted_insertionSort descTs _
  · rintro rfl
    rfl
  · rintro l rfl
    refine ⟨rfl, List.length_take_le _ _, ?_⟩
    intro p hp q hq
    have hs : List.Pairwise descTs
        (sortDesc (candles.filterMap CoinbaseConnector.parseCandle)) :=
      List.sorted_insertionSort descTs _
    have hsplit : List.Pairwise descTs
        ((sortDesc (candles.filterMap CoinbaseConnector.parseCandle)).take l
          ++ (sortDesc (candles.filterMap CoinbaseConnector.parseCandle)).drop l) := by
      rw [List.take_append_drop]
      exact hs
    exact (List.pairwise_append.mp hsplit).2.2 p hp q hq

/-- Two Binance candles with the same open time, the second with a different
close price, queried with `limit = 1`. -/
def cDupCandles : List (List Json) :=
  [ [Json.num 0, Json.str "1", Json.str "1", Json.str "1", Json.str "1", Json.str "1"],
    [Json.num 0, Json.str "1", Json.str "1", Json.str "1", Json.str "2", Json.str "1"] ]

/-- Counterexample to C4 as stated: at this concrete input Binance's
`get_price_history` with `limit = 1` returns 2 points (no post-sort
truncation to the limit), and their timestamps are equal (so the data is not
*strictly* descending). -/
theorem binance_history_limit_counterexample :
    (BinanceConnector.get_price_history wPair .OneDay none none (some 1) 0
        (.body cDupCandles)).map (fun h => h.data.map (fun p => p.timestamp)) = .ok [0, 0] ∧
    (BinanceConnector.get_price_history wPair .OneDay none none (some 1) 0
        (.body cDupCandles)).map (fun h => h.data.length) = .ok 2 ∧
    ¬ (2 : Nat) ≤ 1 ∧
    ¬ List.Pairwise (fun a b : Int => b < a) [0, 0] := by
  refine ⟨by decide, by decide, by decide, by decide⟩

/-- Witness for C4 (amended) at a concrete input: the Coinbase side of the
same query is truncated to the limit and sorted. -/
theorem history_sorted_desc_and_truncation_witness :
    ∃ hc, CoinbaseConnector.get_price_history wPair .OneDay none none (some 1) 0
        (.body cDupCandles) = .ok hc ∧ hc.data.length ≤ 1 ∧ List.Sorted descTs hc.data := by
  obtain ⟨hc, hb, h1, h2, h3, h4, h5, h6, h7⟩ :=
    history_sorted_desc_and_truncation wPair .OneDay none none (some 1) 0 cDupCandles
  exact ⟨hc, h1, (h7 1 rfl).2.1, h3⟩

/-- C5 (amended): Coinbase's history request defaults an absent end to `now`
and derives an absent start so that the window spans exactly
`limit` (default 300) candles of the interval's duration back from the end;
Binance derives no window — its request simply omits `startTime`/`endTime`
when absent and sends a candle count of `min (limit, 1000)` defaulting
to 1000. -/
theorem history_default_window_policy
    (pair : TradingPair) (interval : PriceInterval)
    (st et : Option Int) (lim : Option Nat) (now : Int) :
    (CoinbaseConnector.history_window interval st et lim now).2 = et.getD now ∧
    (et = none → (CoinbaseConnector.history_window interval st et lim now).2 = now) ∧
    (st = none →
      (CoinbaseConnector.history_window interval st et lim now).2
        - (CoinbaseConnector.history_window interval st et lim now).1
        = (coinbase_granularity interval : Int) * ((lim.getD 300 : Nat) : Int) * 1000) ∧
    (∀ s, st = some s → (CoinbaseConnector.history_window interval st et lim now).1 = s) ∧
    (BinanceConnector.klines_request pair interval st et lim).startTime = st ∧
    (BinanceConnector.klines_request pair interval st et lim).endTime = et ∧
    (BinanceConnector.klines_request pair interval st et lim).limit
      = min (lim.getD 1000) 1000 := by
  refine ⟨rfl, ?_, ?_, ?_, rfl, rfl, rfl⟩
  · rintro rfl
    rfl
  · rintro rfl
    simp only [CoinbaseConnector.history_window, Option.getD_none]
    ring
  · rintro s rfl
    rfl

/-- Counterexample to C5 as stated: with `start`, `end` and `limit` all
absent, the Binance klines request derives no start ("window covering 300
candles back from the end") and no end ("now"); it carries no `startTime`,
no `endTime`, and a candle count of 1000, not 300. -/
theorem binance_default_window_counterexample :
    (BinanceConnector.klines_request wPair .OneDay none none none).startTime = none ∧
    (BinanceConnector.klines_request wPair .OneDay none none none).endTime = none ∧
    (BinanceConnector.klines_request wPair .OneDay none none none).limit = 1000 ∧
    (BinanceConnector.klines_request wPair .OneDay none none none).limit ≠ 300 := by
  exact ⟨rfl, rfl, rfl, by decide⟩

/-- Witness for C5 (amended) at a concrete input: the Coinbase window with
everything absent ends at `now` and spans 300 one-day candles. -/
theorem history_default_window_policy_witness :
    (CoinbaseConnector.history_window .OneDay none none none 5000).2 = 5000 ∧
    (CoinbaseConnector.history_window .OneDay none none none 5000).2
      - (CoinbaseConnector.history_window .OneDay none none none 5000).1
      = 86400 * 300 * 1000 := by
  have h := history_default_window_policy wPair .OneDay none none none 5000
  refine ⟨h.2.1 rfl, ?_⟩
  rw [h.2.2.1 rfl]
  decide
